import Mathlib

/-!
Shallow embedding of `src/app.js` (jcgcarranza/api-rest-express): an in-memory
CRUD API over a list of user records. Pure functions model the four
`/api/usuarios` handlers; the mutable global array `usuarios` is threaded as
explicit state. JavaScript `undefined` for the body name is `Option.none`;
`res.send`/`res.status(..).send` calls are `Response` values.
-/

namespace ApiRestExpress

/-- A user record `{id, nombre}` as stored in the `usuarios` array
(src/app.js lines 78-83, 118-121). Ids are JS numbers compared with `===`
against `parseInt` results, so we use `Int`. -/
structure Usuario where
  id : Int
  nombre : String
deriving DecidableEq, Repr

/-- The seed store (src/app.js lines 78-83): the array the process starts with. -/
def usuarios : List Usuario :=
  [⟨1, "Juan"⟩, ⟨2, "Ana"⟩, ⟨3, "Karen"⟩, ⟨4, "Luis"⟩]

/-- Numeric value of a hexadecimal digit character, `none` for non-digits. -/
def hexVal (c : Char) : Option Nat :=
  if '0' ≤ c ∧ c ≤ '9' then some (c.toNat - '0'.toNat)
  else if 'a' ≤ c ∧ c ≤ 'f' then some (c.toNat - 'a'.toNat + 10)
  else if 'A' ≤ c ∧ c ≤ 'F' then some (c.toNat - 'A'.toNat + 10)
  else none

/-- Accumulate further digits valid in `base`, stopping at the first invalid
character, as JS `parseInt` does. -/
def digitsValAux (base : Nat) (acc : Nat) : List Char → Nat
  | [] => acc
  | c :: resto =>
    match hexVal c with
    | some d => if d < base then digitsValAux base (acc * base + d) resto else acc
    | none => acc

/-- Value of the longest prefix of digits valid in `base`; `none` when that
prefix is empty (JS `parseInt` yields `NaN` then). -/
def digitsVal (base : Nat) : List Char → Option Nat
  | [] => none
  | c :: resto =>
    match hexVal c with
    | some d => if d < base then some (digitsValAux base d resto) else none
    | none => none

/-- Whitespace skipped by JS `parseInt` before the number. -/
def isJsWhitespace (c : Char) : Bool :=
  c == ' ' || c == '\t' || c == '\n' || c == '\r' || c == '\x0b' || c == '\x0c'

/-- Magnitude part of JS `parseInt` with no radix argument: a `0x`/`0X` prefix
selects base 16, otherwise base 10. -/
def parseDigitsPart : List Char → Option Nat
  | '0' :: 'x' :: resto => digitsVal 16 resto
  | '0' :: 'X' :: resto => digitsVal 16 resto
  | cs => digitsVal 10 cs

/-- JavaScript `parseInt(s)` as used in `existeUsuario` (src/app.js line 185):
skip whitespace, optional sign, then the longest valid digit prefix; `none`
models `NaN`. -/
def parseIntJS (s : String) : Option Int :=
  match s.data.dropWhile isJsWhitespace with
  | '-' :: resto => (parseDigitsPart resto).map (fun n => -(n : Int))
  | '+' :: resto => (parseDigitsPart resto).map (fun n => (n : Int))
  | cs => (parseDigitsPart cs).map (fun n => (n : Int))

/-- Function `existeUsuario(id)` (src/app.js lines 184-186):
`usuarios.find(u => u.id === parseInt(id))`. When `parseIntJS` yields `none`
(`NaN`), strict equality is false for every record and `find` yields
`undefined`, here `none`. -/
def existeUsuario (us : List Usuario) (id : String) : Option Usuario :=
  match parseIntJS id with
  | none => none
  | some n => us.find? (fun u => u.id == n)

/-- Result of `schema.validate({nombre: nom})` destructured in the handlers:
`value` is the `nombre` field of the returned value object and `error` is the
first error message (`error.details[0].message`), `none` on success. -/
structure JoiResult where
  value : Option String
  error : Option String
deriving DecidableEq, Repr

/-- Modelled from the spec: the external Joi library evaluating the schema
`Joi.object({nombre: Joi.string().min(3).required()})` inside `validarUsuario`
(src/app.js lines 188-193) is not part of this repository. Per spec section 4.2,
validation fails with a human-readable message when the name is absent or
shorter than 3 characters, and otherwise succeeds with the same string. -/
def validarUsuario (nom : Option String) : JoiResult :=
  match nom with
  | none => ⟨none, some "\"nombre\" is required"⟩
  | some s =>
    if s.length < 3 then
      ⟨some s, some "\"nombre\" length must be at least 3 characters long"⟩
    else ⟨some s, none⟩

/-- Payload of one `res.send` call: a plain-text string, a user object, or
JS `undefined` (from `res.send(usuario)` when `usuario` is `undefined`). -/
inductive Payload where
  | text (s : String)
  | user (u : Usuario)
  | undef
deriving DecidableEq, Repr

/-- One response: the HTTP status in force when `res.send` ran (200 unless
`res.status` was called) and the payload. -/
structure Response where
  status : Nat
  body : Payload
deriving DecidableEq, Repr

/-- Handler `app.get('/api/usuarios/:id')` (src/app.js lines 100-107). The
body has no `return` after the 404 `send`, so in the not-found case the final
`res.send(usuario)` also runs with `usuario === undefined`; the result lists
every `res.send` call the handler makes, in order, with the status set at
that moment. -/
def getUsuarioPorId (us : List Usuario) (id : String) : List Response :=
  match existeUsuario us id with
  | none => [⟨404, Payload.text "El usuario no se encuentra"⟩, ⟨404, Payload.undef⟩]
  | some usuario => [⟨200, Payload.user usuario⟩]

/-- Handler `app.post('/api/usuarios')` (src/app.js lines 114-129), returning
the single response and the updated store. On success the stored `nombre` is
the raw `req.body.nombre` (line 120), not the validator's output; success
forces the name to be present (`validar_error_none`), so the `getD` default is
dead code. -/
def postUsuario (us : List Usuario) (nombre : Option String) :
    Response × List Usuario :=
  let vr := validarUsuario nombre
  match vr.error with
  | none =>
    let usuario : Usuario := ⟨(us.length : Int) + 1, nombre.getD ""⟩
    (⟨200, Payload.user usuario⟩, us ++ [usuario])
  | some mensaje => (⟨400, Payload.text mensaje⟩, us)

/-- Replace the first occurrence of `viejo` in the list by `nuevo`: the value
semantics of the in-place mutation `usuario.nombre = value.nombre`
(src/app.js line 153), which acts through the object reference returned by
`existeUsuario`. -/
def replaceFirst (us : List Usuario) (viejo nuevo : Usuario) : List Usuario :=
  match us with
  | [] => []
  | u :: resto =>
    if u = viejo then nuevo :: resto else u :: replaceFirst resto viejo nuevo

/-- Handler `app.put('/api/usuarios/:id')` (src/app.js lines 135-155): 404 and
return when the lookup fails, 400 and return when validation fails, otherwise
mutate the found record's `nombre` to `value.nombre` and send it. Success
forces `value` to be present, so the `getD` default is dead code. -/
def putUsuario (us : List Usuario) (id : String) (nombre : Option String) :
    Response × List Usuario :=
  match existeUsuario us id with
  | none => (⟨404, Payload.text "El usuario no se encuentra"⟩, us)
  | some usuario =>
    let vr := validarUsuario nombre
    match vr.error with
    | some mensaje => (⟨400, Payload.text mensaje⟩, us)
    | none =>
      let actualizado : Usuario := { usuario with nombre := vr.value.getD usuario.nombre }
      (⟨200, Payload.user actualizado⟩, replaceFirst us usuario actualizado)

/-- Handler `app.delete('/api/usuarios/:id')` (src/app.js lines 161-172): 404
and return when the lookup fails, otherwise `usuarios.splice(usuarios.indexOf(usuario), 1)`
— removal of the first occurrence of the found record, `List.erase` — and the
removed record is sent. -/
def deleteUsuario (us : List Usuario) (id : String) : Response × List Usuario :=
  match existeUsuario us id with
  | none => (⟨404, Payload.text "El usuario no se encuentra"⟩, us)
  | some usuario => (⟨200, Payload.user usuario⟩, us.erase usuario)

/-- A mutating request: POST with a body name, or DELETE with a path id. -/
inductive Req where
  | post (nombre : Option String)
  | del (id : String)

/-- Store after one request: the state component of the handler's result. -/
def stepStore (us : List Usuario) : Req → List Usuario
  | Req.post nombre => (postUsuario us nombre).2
  | Req.del id => (deleteUsuario us id).2

/-- Store after a sequence of POST and DELETE requests. -/
def runStore (inicial : List Usuario) (reqs : List Req) : List Usuario :=
  reqs.foldl stepStore inicial


/-- Validation succeeds exactly for a present name of length at least 3. -/
lemma validar_error_none {nom : Option String} :
    (validarUsuario nom).error = none ↔ ∃ s, nom = some s ∧ 3 ≤ s.length := by
  cases nom with
  | none => simp [validarUsuario]
  | some s =>
    by_cases h : s.length < 3
    · simp [validarUsuario, h]
    · simp [validarUsuario, h]
      omega

/-- On success the validator's value is the (present) input string. -/
lemma validar_value_eq {nom : Option String}
    (h : (validarUsuario nom).error = none) :
    ∃ s, nom = some s ∧ (validarUsuario nom).value = some s := by
  obtain ⟨s, rfl, hs⟩ := validar_error_none.mp h
  refine ⟨s, rfl, ?_⟩
  simp [validarUsuario, Nat.not_lt.mpr hs]

/-- A successful `find?` splits the list at the first match. -/
lemma find?_decomp {p : Usuario → Bool} :
    ∀ {l : List Usuario} {u : Usuario}, l.find? p = some u →
      ∃ l1 l2, l = l1 ++ u :: l2 ∧ (∀ v ∈ l1, ¬ p v) ∧ p u := by
  intro l
  induction l with
  | nil => intro u h; simp at h
  | cons a resto ih =>
    intro u h
    by_cases hp : p a
    · rw [List.find?_cons_of_pos _ hp] at h
      obtain rfl : a = u := by simpa using h
      exact ⟨[], resto, rfl, by simp, hp⟩
    · rw [List.find?_cons_of_neg _ hp] at h
      obtain ⟨l1, l2, rfl, h1, h2⟩ := ih h
      refine ⟨a :: l1, l2, rfl, ?_, h2⟩
      intro v hv
      rcases List.mem_cons.mp hv with rfl | hv
      · exact hp
      · exact h1 v hv

/-- Erasing an element absent from the prefix removes the head occurrence. -/
lemma erase_append_not_mem {l1 l2 : List Usuario} {u : Usuario} (h : u ∉ l1) :
    (l1 ++ u :: l2).erase u = l1 ++ l2 := by
  induction l1 with
  | nil => simp
  | cons a resto ih =>
    have ha : ¬ (a == u) = true := by
      simp only [beq_iff_eq]
      rintro rfl
      exact h (List.mem_cons_self a resto)
    have hmem : u ∉ resto := fun hm => h (List.mem_cons_of_mem a hm)
    simp only [List.cons_append, List.erase_cons, if_neg ha, ih hmem]

/-- Replacing an element absent from the prefix rewrites the head occurrence. -/
lemma replaceFirst_append {l1 l2 : List Usuario} {viejo nuevo : Usuario}
    (h : viejo ∉ l1) :
    replaceFirst (l1 ++ viejo :: l2) viejo nuevo = l1 ++ nuevo :: l2 := by
  induction l1 with
  | nil => simp [replaceFirst]
  | cons a resto ih =>
    have ha : a ≠ viejo := by rintro rfl; exact h (List.mem_cons_self a resto)
    have hmem : viejo ∉ resto := fun hm => h (List.mem_cons_of_mem a hm)
    simp [replaceFirst, ha, ih hmem]

/-- A successful lookup parses the id and splits the store at the first
record carrying that id. -/
lemma existeUsuario_some_decomp {us : List Usuario} {id : String} {u : Usuario}
    (h : existeUsuario us id = some u) :
    ∃ n l1 l2, parseIntJS id = some n ∧ u.id = n ∧ us = l1 ++ u :: l2 ∧
      ∀ v ∈ l1, v.id ≠ n := by
  unfold existeUsuario at h
  cases hp : parseIntJS id with
  | none => rw [hp] at h; simp at h
  | some n =>
    rw [hp] at h
    obtain ⟨l1, l2, hdec, h1, h2⟩ := find?_decomp h
    refine ⟨n, l1, l2, rfl, by simpa using h2, hdec, ?_⟩
    intro v hv
    have := h1 v hv
    simpa using this


/-- A successful POST appends the record `⟨length+1, raw name⟩` and sends it
with status 200. -/
lemma postUsuario_exito {us : List Usuario} {n : String}
    (h : (validarUsuario (some n)).error = none) :
    postUsuario us (some n) =
      (⟨200, Payload.user ⟨(us.length : Int) + 1, n⟩⟩,
        us ++ [⟨(us.length : Int) + 1, n⟩]) := by
  simp [postUsuario, h]

/-- A successful PUT rewrites the first record carrying the parsed id, keeping
its id and all other records, and sends the updated record with status 200. -/
lemma putUsuario_exito {us : List Usuario} {id : String} {u : Usuario}
    {nombre : Option String}
    (hfound : existeUsuario us id = some u)
    (hval : (validarUsuario nombre).error = none) :
    ∃ n l1 l2, parseIntJS id = some n ∧ u.id = n ∧ us = l1 ++ u :: l2 ∧
      (∀ v ∈ l1, v.id ≠ n) ∧
      putUsuario us id nombre =
        (⟨200, Payload.user { u with nombre := (validarUsuario nombre).value.getD u.nombre }⟩,
          l1 ++ { u with nombre := (validarUsuario nombre).value.getD u.nombre } :: l2) := by
  obtain ⟨n, l1, l2, hp, hid, hdec, hl1⟩ := existeUsuario_some_decomp hfound
  refine ⟨n, l1, l2, hp, hid, hdec, hl1, ?_⟩
  have hnotmem : u ∉ l1 := by
    intro hm
    exact hl1 u hm (by rw [hid])
  have hrep := @replaceFirst_append l1 l2 u
    { u with nombre := (validarUsuario nombre).value.getD u.nombre } hnotmem
  rw [hdec] at hfound ⊢
  simp [putUsuario, hfound, hval, hrep]

/-- A successful DELETE removes the first record carrying the parsed id and
sends it with status 200. -/
lemma deleteUsuario_exito {us : List Usuario} {id : String} {u : Usuario}
    (hfound : existeUsuario us id = some u) :
    ∃ n l1 l2, parseIntJS id = some n ∧ u.id = n ∧ us = l1 ++ u :: l2 ∧
      (∀ v ∈ l1, v.id ≠ n) ∧
      deleteUsuario us id = (⟨200, Payload.user u⟩, l1 ++ l2) := by
  obtain ⟨n, l1, l2, hp, hid, hdec, hl1⟩ := existeUsuario_some_decomp hfound
  refine ⟨n, l1, l2, hp, hid, hdec, hl1, ?_⟩
  have hnotmem : u ∉ l1 := fun hm => hl1 u hm (by rw [hid])
  have her := @erase_append_not_mem l1 l2 u hnotmem
  rw [hdec] at hfound ⊢
  simp [deleteUsuario, hfound, her]

/-- When the store's ids are pairwise distinct, removing the record found for
an id leaves no record carrying that id. -/
lemma existeUsuario_after_erase {l1 l2 : List Usuario} {u : Usuario} {n : Int}
    (hnd : (((l1 ++ u :: l2).map Usuario.id)).Nodup) (hid : u.id = n) :
    ∀ v ∈ l1 ++ l2, v.id ≠ n := by
  intro v hv hvn
  have hmem : v.id ∈ (l1.map Usuario.id) ++ (l2.map Usuario.id) := by
    rcases List.mem_append.mp hv with h | h
    · exact List.mem_append.mpr (Or.inl (List.mem_map_of_mem Usuario.id h))
    · exact List.mem_append.mpr (Or.inr (List.mem_map_of_mem Usuario.id h))
  have hnd' : ((l1.map Usuario.id) ++ u.id :: (l2.map Usuario.id)).Nodup := by
    simpa using hnd
  have : u.id ∉ (l1.map Usuario.id) ++ (l2.map Usuario.id) := by
    have h1 := (List.nodup_append.mp hnd')
    intro hmem'
    rcases List.mem_append.mp hmem' with h | h
    · exact h1.2.2 h (List.mem_cons_self _ _)
    · exact (List.nodup_cons.mp h1.2.1).1 h
  rw [hid] at this
  rw [hvn] at hmem
  exact this hmem


/-- C1: the claim fails on the code. From the seed store, DELETE 1 followed by
POST assigns the new record id `length + 1 = 4`, duplicating the surviving id
4, so the ids are no longer pairwise distinct; and DELETE 4 followed by POST
reassigns the deleted id 4 to the new record. -/
theorem c1_ids_distintos_falla :
    runStore usuarios [Req.del "1", Req.post (some "Bob")] =
      [⟨2, "Ana"⟩, ⟨3, "Karen"⟩, ⟨4, "Luis"⟩, ⟨4, "Bob"⟩] ∧
    ¬ ((runStore usuarios [Req.del "1", Req.post (some "Bob")]).map Usuario.id).Nodup ∧
    (deleteUsuario usuarios "4").2 = [⟨1, "Juan"⟩, ⟨2, "Ana"⟩, ⟨3, "Karen"⟩] ∧
    (postUsuario (deleteUsuario usuarios "4").2 (some "Bob")).2 =
      [⟨1, "Juan"⟩, ⟨2, "Ana"⟩, ⟨3, "Karen"⟩, ⟨4, "Bob"⟩] := by
  refine ⟨by decide, by decide, by decide, by decide⟩

/-- C2: on a missing id the GET handler does not stop after the 404: the
missing `return` makes the final `res.send(usuario)` run as well, with
`usuario` undefined, so two sends are issued instead of exactly one response;
on an existing id exactly one 200 JSON response is sent. -/
theorem c2_get_doble_envio :
    getUsuarioPorId usuarios "999" =
      [⟨404, Payload.text "El usuario no se encuentra"⟩, ⟨404, Payload.undef⟩] ∧
    (getUsuarioPorId usuarios "999").length = 2 ∧
    getUsuarioPorId usuarios "1" = [⟨200, Payload.user ⟨1, "Juan"⟩⟩] := by
  refine ⟨by decide, by decide, by decide⟩


/-- C3: for every store state and every name the validator accepts, POST
creates the record with id `length + 1`, appends it to the end of the store,
and returns it with status 200. -/
theorem c3_post_crea (us : List Usuario) (n : String)
    (h : (validarUsuario (some n)).error = none) :
    postUsuario us (some n) =
      (⟨200, Payload.user ⟨(us.length : Int) + 1, n⟩⟩,
        us ++ [⟨(us.length : Int) + 1, n⟩]) :=
  postUsuario_exito h

/-- Witness for C3 at the seed store and the name Bob. -/
theorem c3_post_crea_witness :
    postUsuario usuarios (some "Bob") =
      (⟨200, Payload.user ⟨5, "Bob"⟩⟩, usuarios ++ [⟨5, "Bob"⟩]) := by
  have h := c3_post_crea usuarios "Bob" (by decide)
  simpa using h

/-- C4: the validator succeeds exactly when the name is present with length at
least 3; on success the returned value is the same string; when the name is
absent or shorter than 3 characters it fails with an error message. -/
theorem c4_validar_caracterizacion (nom : Option String) :
    ((validarUsuario nom).error = none ↔ ∃ s, nom = some s ∧ 3 ≤ s.length) ∧
    (∀ s, nom = some s → 3 ≤ s.length → (validarUsuario nom).value = some s) ∧
    (nom = none → ∃ mensaje, (validarUsuario nom).error = some mensaje) ∧
    (∀ s, nom = some s → s.length < 3 →
      ∃ mensaje, (validarUsuario nom).error = some mensaje) := by
  refine ⟨validar_error_none, ?_, ?_, ?_⟩
  · rintro s rfl hs
    obtain ⟨t, ht, hv⟩ := validar_value_eq
      (validar_error_none.mpr ⟨s, rfl, hs⟩)
    obtain rfl : s = t := by simpa using ht
    exact hv
  · rintro rfl
    exact ⟨_, rfl⟩
  · rintro s rfl hs
    simp [validarUsuario, hs]

/-- Witness for C4 at the names Bob (valid), absent, and Bo (too short). -/
theorem c4_validar_caracterizacion_witness :
    (validarUsuario (some "Bob")).value = some "Bob" ∧
    (∃ m, (validarUsuario none).error = some m) ∧
    (∃ m, (validarUsuario (some "Bo")).error = some m) :=
  ⟨(c4_validar_caracterizacion (some "Bob")).2.1 "Bob" rfl (by decide),
    (c4_validar_caracterizacion none).2.2.1 rfl,
    (c4_validar_caracterizacion (some "Bo")).2.2.2 "Bo" rfl (by decide)⟩

/-- C5: when the lookup fails, PUT answers 404 with the store untouched, and
the result does not depend on the request body at all: the handler returns
before `validarUsuario` is reached. -/
theorem c5_put_404_sin_validar (us : List Usuario) (id : String)
    (nombre nombre' : Option String)
    (h : existeUsuario us id = none) :
    putUsuario us id nombre = (⟨404, Payload.text "El usuario no se encuentra"⟩, us) ∧
    putUsuario us id nombre = putUsuario us id nombre' := by
  constructor
  · simp [putUsuario, h]
  · simp [putUsuario, h]

/-- Witness for C5 at the seed store, the unknown id 999 and two bodies, one
of which would fail validation. -/
theorem c5_put_404_sin_validar_witness :
    putUsuario usuarios "999" (some "Bo") =
      (⟨404, Payload.text "El usuario no se encuentra"⟩, usuarios) ∧
    putUsuario usuarios "999" (some "Bo") = putUsuario usuarios "999" none :=
  c5_put_404_sin_validar usuarios "999" (some "Bo") none (by decide)


/-- C6 fails as stated: in the store reached from the seed by DELETE 1 then
POST Bob, two records carry id 4. DELETE 4 removes only the first of them and
returns it, and the subsequent GET for id 4 finds the second one and answers
200, not 404. -/
theorem c6_delete_get_contraejemplo :
    runStore usuarios [Req.del "1", Req.post (some "Bob")] =
      [⟨2, "Ana"⟩, ⟨3, "Karen"⟩, ⟨4, "Luis"⟩, ⟨4, "Bob"⟩] ∧
    deleteUsuario [⟨2, "Ana"⟩, ⟨3, "Karen"⟩, ⟨4, "Luis"⟩, ⟨4, "Bob"⟩] "4" =
      (⟨200, Payload.user ⟨4, "Luis"⟩⟩, [⟨2, "Ana"⟩, ⟨3, "Karen"⟩, ⟨4, "Bob"⟩]) ∧
    getUsuarioPorId [⟨2, "Ana"⟩, ⟨3, "Karen"⟩, ⟨4, "Bob"⟩] "4" =
      [⟨200, Payload.user ⟨4, "Bob"⟩⟩] := by
  refine ⟨by decide, by decide, by decide⟩

/-- C6 amended: when the store's ids are pairwise distinct, DELETE on a found
id removes exactly the first (only) occurrence of that record, returns it with
status 200, and the subsequent GET for the same id finds nothing and issues
its 404 not-found response. -/
theorem c6_delete_luego_get_404 (us : List Usuario) (id : String) (u : Usuario)
    (hnd : (us.map Usuario.id).Nodup)
    (hfound : existeUsuario us id = some u) :
    ∃ l1 l2, us = l1 ++ u :: l2 ∧
      deleteUsuario us id = (⟨200, Payload.user u⟩, l1 ++ l2) ∧
      existeUsuario (deleteUsuario us id).2 id = none ∧
      getUsuarioPorId (deleteUsuario us id).2 id =
        [⟨404, Payload.text "El usuario no se encuentra"⟩, ⟨404, Payload.undef⟩] := by
  obtain ⟨n, l1, l2, hp, hid, hdec, hl1, hdel⟩ := deleteUsuario_exito hfound
  have hnone : ∀ v ∈ l1 ++ l2, v.id ≠ n := by
    refine existeUsuario_after_erase ?_ hid
    rw [← hdec]; exact hnd
  have hex : existeUsuario (l1 ++ l2) id = none := by
    unfold existeUsuario
    rw [hp]
    rw [List.find?_eq_none]
    intro v hv
    simpa using hnone v hv
  refine ⟨l1, l2, hdec, hdel, ?_, ?_⟩
  · rw [hdel]; exact hex
  · rw [hdel]
    simp only [getUsuarioPorId, hex]

/-- Witness for C6 amended at the seed store and id 1. -/
theorem c6_delete_luego_get_404_witness :
    ∃ l1 l2, usuarios = l1 ++ ⟨1, "Juan"⟩ :: l2 ∧
      deleteUsuario usuarios "1" = (⟨200, Payload.user ⟨1, "Juan"⟩⟩, l1 ++ l2) ∧
      existeUsuario (deleteUsuario usuarios "1").2 "1" = none ∧
      getUsuarioPorId (deleteUsuario usuarios "1").2 "1" =
        [⟨404, Payload.text "El usuario no se encuentra"⟩, ⟨404, Payload.undef⟩] :=
  c6_delete_luego_get_404 usuarios "1" ⟨1, "Juan"⟩ (by decide) (by decide)

/-- C7: when the lookup succeeds and the body name is valid, PUT replaces only
the `nombre` of the first record carrying the parsed id, keeps its id and all
other records unchanged, and returns that updated record with status 200. -/
theorem c7_put_actualiza_solo_nombre (us : List Usuario) (id : String)
    (u : Usuario) (n : String)
    (hfound : existeUsuario us id = some u)
    (hval : (validarUsuario (some n)).error = none) :
    ∃ l1 l2, us = l1 ++ u :: l2 ∧
      putUsuario us id (some n) =
        (⟨200, Payload.user ⟨u.id, n⟩⟩, l1 ++ ⟨u.id, n⟩ :: l2) := by
  obtain ⟨m, hm, hv⟩ := validar_value_eq hval
  obtain rfl : n = m := by simpa using hm
  obtain ⟨k, l1, l2, hp, hid, hdec, hl1, hput⟩ := putUsuario_exito hfound hval
  refine ⟨l1, l2, hdec, ?_⟩
  rw [hput, hv]
  rfl

/-- Witness for C7 at the seed store, id 1 and the new name Benito. -/
theorem c7_put_actualiza_solo_nombre_witness :
    ∃ l1 l2, usuarios = l1 ++ ⟨1, "Juan"⟩ :: l2 ∧
      putUsuario usuarios "1" (some "Benito") =
        (⟨200, Payload.user ⟨1, "Benito"⟩⟩, l1 ++ ⟨1, "Benito"⟩ :: l2) :=
  c7_put_actualiza_solo_nombre usuarios "1" ⟨1, "Juan"⟩ "Benito"
    (by decide) (by decide)


/-- C8: a successful lookup returns the first record whose id equals the
integer parsed from the input, and the lookup reports not-found exactly when
no record's id equals a parsed value. -/
theorem c8_existe_primer_registro (us : List Usuario) (id : String) :
    (∀ u, existeUsuario us id = some u →
      ∃ n l1 l2, parseIntJS id = some n ∧ u.id = n ∧ us = l1 ++ u :: l2 ∧
        ∀ v ∈ l1, v.id ≠ n) ∧
    (existeUsuario us id = none →
      ∀ u ∈ us, ∀ n, parseIntJS id = some n → u.id ≠ n) := by
  constructor
  · intro u h
    exact existeUsuario_some_decomp h
  · intro h u hu n hn hun
    unfold existeUsuario at h
    rw [hn] at h
    rw [List.find?_eq_none] at h
    have hn' := h u hu
    rw [beq_iff_eq] at hn'
    exact hn' hun

/-- Witness for C8 at the seed store with the present id 1 and absent id 999. -/
theorem c8_existe_primer_registro_witness :
    (∃ n l1 l2, parseIntJS "1" = some n ∧ (⟨1, "Juan"⟩ : Usuario).id = n ∧
      usuarios = l1 ++ ⟨1, "Juan"⟩ :: l2 ∧ ∀ v ∈ l1, v.id ≠ n) ∧
    (∀ u ∈ usuarios, ∀ n, parseIntJS "999" = some n → u.id ≠ n) :=
  ⟨(c8_existe_primer_registro usuarios "1").1 ⟨1, "Juan"⟩ (by decide),
    (c8_existe_primer_registro usuarios "999").2 (by decide)⟩

/-- C9: whenever POST, PUT or DELETE answer with status 400 or 404, the store
component of the result is exactly the input store. -/
theorem c9_errores_preservan_estado (us : List Usuario) (id : String)
    (nombre : Option String) :
    ((postUsuario us nombre).1.status = 400 ∨ (postUsuario us nombre).1.status = 404 →
      (postUsuario us nombre).2 = us) ∧
    ((putUsuario us id nombre).1.status = 400 ∨ (putUsuario us id nombre).1.status = 404 →
      (putUsuario us id nombre).2 = us) ∧
    ((deleteUsuario us id).1.status = 400 ∨ (deleteUsuario us id).1.status = 404 →
      (deleteUsuario us id).2 = us) := by
  refine ⟨?_, ?_, ?_⟩
  · intro hst
    cases hvr : (validarUsuario nombre).error with
    | none => simp [postUsuario, hvr] at hst
    | some m => simp [postUsuario, hvr]
  · intro hst
    cases hex : existeUsuario us id with
    | none => simp [putUsuario, hex]
    | some u =>
      cases hvr : (validarUsuario nombre).error with
      | none => simp [putUsuario, hex, hvr] at hst
      | some m => simp [putUsuario, hex, hvr]
  · intro hst
    cases hex : existeUsuario us id with
    | none => simp [deleteUsuario, hex]
    | some u => simp [deleteUsuario, hex] at hst

/-- Witness for C9: POST of the too-short name Bo answers 400, PUT and DELETE
of the unknown id 999 answer 404, and each leaves the seed store unchanged. -/
theorem c9_errores_preservan_estado_witness :
    (postUsuario usuarios (some "Bo")).2 = usuarios ∧
    (putUsuario usuarios "999" (some "Bo")).2 = usuarios ∧
    (deleteUsuario usuarios "999").2 = usuarios := by
  have h := c9_errores_preservan_estado usuarios "999" (some "Bo")
  exact ⟨h.1 (Or.inl (by decide)), h.2.1 (Or.inr (by decide)),
    h.2.2 (Or.inr (by decide))⟩

/-- C10: a successful POST stores the raw request-body name (first conjunct)
while a successful PUT stores the validator's returned value (second
conjunct); the validator of this schema only ever returns the input string
unchanged (third conjunct), so a name the validator accepts only after
altering it does not exist and the claimed divergence between the two stored
values never materialises. -/
theorem c10_post_crudo_put_validado :
    (∀ us n, (validarUsuario (some n)).error = none →
      (postUsuario us (some n)).2 = us ++ [⟨(us.length : Int) + 1, n⟩]) ∧
    (∀ us id u nombre, existeUsuario us id = some u →
      (validarUsuario nombre).error = none →
      (putUsuario us id nombre).1.body =
        Payload.user ⟨u.id, ((validarUsuario nombre).value.getD u.nombre)⟩) ∧
    (∀ nombre s, (validarUsuario nombre).value = some s → nombre = some s) := by
  refine ⟨?_, ?_, ?_⟩
  · intro us n h
    rw [postUsuario_exito h]
  · intro us id u nombre hfound hval
    obtain ⟨k, l1, l2, hp, hid, hdec, hl1, hput⟩ := putUsuario_exito hfound hval
    rw [hput]
  · intro nombre s hv
    cases nombre with
    | none => simp [validarUsuario] at hv
    | some t =>
      by_cases ht : t.length < 3
      · simp [validarUsuario, ht] at hv
        subst hv
        rfl
      · simp [validarUsuario, ht] at hv
        subst hv
        rfl

/-- Witness for C10: POST of Bob onto the seed store stores the raw string
Bob; PUT of Bob onto record 1 sends the validator's value for Bob; the
validator's value for Bob is Bob itself. -/
theorem c10_post_crudo_put_validado_witness :
    (postUsuario usuarios (some "Bob")).2 = usuarios ++ [⟨5, "Bob"⟩] ∧
    (putUsuario usuarios "1" (some "Bob")).1.body =
      Payload.user ⟨1, (validarUsuario (some "Bob")).value.getD "Juan"⟩ ∧
    (some "Bob" : Option String) = some "Bob" := by
  have h := c10_post_crudo_put_validado
  refine ⟨?_, ?_, h.2.2 (some "Bob") "Bob" (by decide)⟩
  · have h1 := h.1 usuarios "Bob" (by decide)
    simpa using h1
  · have h2 := h.2.1 usuarios "1" ⟨1, "Juan"⟩ (some "Bob") (by decide) (by decide)
    simpa using h2

end ApiRestExpress
